import Mathlib

/-!
# Verification of the WhatsApp-commerce backend core

Shallow embedding of the repository's order state machine, inventory
handling, product soft-delete, webhook signature gate and chat command
interpreter (files `Backend/src/routes/orders.js`,
`Backend/src/routes/products.js`, and the webhook router), together with
proofs about the claims of the specification.

Modelling conventions:
* Database rows become Lean structures; the string `status` columns stay
  strings, exactly as in the Prisma schema.
* Monetary values (`Float`/`REAL` columns) are modelled as naturals; no
  claim under scrutiny depends on floating-point rounding.
* `stock` is an `Int`, since the SQL column is a plain signed integer and
  nothing at the storage layer forbids negative values.
* Each top-level Prisma call is one atomically committed unit; an
  interactive `$transaction` is a single unit containing all its writes.
  Handlers therefore return, besides the HTTP response, the list of commit
  units they issue; applying a prefix of that list models a crash between
  two independently committed calls.
* Wall-clock timestamps are replaced by the row-id counter (monotone), and
  generated UUIDs by an injective function of that counter.
* The express-validator middleware is modelled where its outcome matters
  (status whitelist, UUID format, quantity bounds); the phone-number format
  check is orthogonal to every claim and is left out.
-/

namespace WaCommerce

/-- `Product` row (Prisma model `Product`): the fields the order, product
and chat routes read. -/
structure Product where
  id : Nat
  name : String
  price : Nat
  stock : Int
  isActive : Bool
  deriving Repr, DecidableEq

/-- One entry of the JSON `statusHistory` array pushed by the status
PATCH handler (`{from, to, userId, note}`; the wall-clock `date` is not
modelled). -/
structure HistEntry where
  fromStatus : String
  toStatus : String
  userId : Nat
  note : Option String
  deriving Repr, DecidableEq

/-- `Order` row as the route handlers use it (`phoneNumber`, `total`,
string `status`, `statusHistory`). `createdAt` is the monotone row
counter at creation time. -/
structure Order where
  id : Nat
  orderNumber : String
  phoneNumber : String
  userId : Option Nat
  total : Nat
  status : String
  statusHistory : List HistEntry
  createdAt : Nat
  deriving Repr, DecidableEq

/-- `OrderItem` row: quantity plus the unit-price snapshot taken at
creation time. -/
structure OrderItem where
  id : Nat
  orderId : Nat
  productId : Nat
  quantity : Nat
  price : Nat
  deriving Repr, DecidableEq

/-- `Message` row as the webhook handler writes it: the provider message
id goes only into the `metadata` JSON blob. -/
structure MessageRow where
  phoneNumber : String
  message : String
  messageType : String
  status : String
  metaMessageId : String
  metaTimestamp : String
  metaContactName : Option String
  deriving Repr, DecidableEq

/-- `AuditLog` row (only the fields that matter for state equality). -/
structure AuditEntry where
  userId : Option Nat
  action : String
  entityId : String
  deriving Repr, DecidableEq

/-- The persistent state: the relational tables plus the fresh-id
supply. -/
structure DB where
  products : List Product
  orders : List Order
  orderItems : List OrderItem
  messages : List MessageRow
  audits : List AuditEntry
  nextId : Nat
  deriving Repr, DecidableEq

/-- One primitive database write. -/
inductive DbWrite where
  | insertOrder (o : Order)
  | insertOrderItem (it : OrderItem)
  | decStock (pid : Nat) (qty : Nat)
  | incStock (pid : Nat) (qty : Nat)
  | setOrderStatus (orderNumber : String) (newStatus : String) (hist : HistEntry)
  | insertAudit (a : AuditEntry)
  | setNextId (n : Nat)
  deriving Repr, DecidableEq

/-- A commit unit: the writes of one atomically committed Prisma call
(a `$transaction` is one unit containing all its writes). -/
abbrev Commit := List DbWrite

/-- Apply one primitive write to the state. -/
def applyWrite (db : DB) : DbWrite → DB
  | .insertOrder o => { db with orders := db.orders ++ [o] }
  | .insertOrderItem it => { db with orderItems := db.orderItems ++ [it] }
  | .decStock pid qty =>
      { db with products := db.products.map fun p =>
          if p.id = pid then { p with stock := p.stock - qty } else p }
  | .incStock pid qty =>
      { db with products := db.products.map fun p =>
          if p.id = pid then { p with stock := p.stock + qty } else p }
  | .setOrderStatus onum st hist =>
      { db with orders := db.orders.map fun o =>
          if o.orderNumber = onum then
            { o with status := st, statusHistory := o.statusHistory ++ [hist] }
          else o }
  | .insertAudit a => { db with audits := db.audits ++ [a] }
  | .setNextId n => { db with nextId := n }

/-- Apply one commit unit. -/
def applyCommit (db : DB) (c : Commit) : DB := c.foldl applyWrite db

/-- Apply a list of commit units in order. -/
def runCommits (db : DB) (cs : List Commit) : DB := cs.foldl applyCommit db

/-- Body of an HTTP JSON response, as far as the claims distinguish
bodies. -/
inductive RespBody where
  | validationErrors
  | errorMsg (s : String)
  | orderCreated (o : Order)
  | okMsg (s : String)
  | payload
  deriving Repr, DecidableEq

/-- Result of a REST handler: HTTP status, body, and the commit units the
handler issued (in program order). -/
structure HResult where
  status : Nat
  body : RespBody
  commits : List Commit
  deriving Repr, DecidableEq

/-- Final state after a handler runs to completion. -/
def HResult.finalState (r : HResult) (db : DB) : DB := runCommits db r.commits

/-! ## Order creation (`POST /api/orders`) -/

/-- One line of the request body (`items.*`). -/
structure ReqItem where
  productId : Nat
  quantity : Nat
  deriving Repr, DecidableEq

/-- The express-validator gate of `POST /api/orders`: at least one item,
integer product ids `>= 1`, quantities between 1 and 100. -/
def createOrderValid (items : List ReqItem) : Bool :=
  0 < items.length &&
    items.all fun it => 1 ≤ it.productId && 1 ≤ it.quantity && it.quantity ≤ 100

/-- `tx.product.findMany({where: {id: {in: productIds}, isActive: true}})`. -/
def fetchActive (db : DB) (pids : List Nat) : List Product :=
  db.products.filter fun p => pids.contains p.id && p.isActive

/-- The stock loop of the create handler: the name of the first product
whose stock is below the requested quantity, if any
(`products.find(p => p.id === item.productId)` then `product.stock <
item.quantity`). -/
def firstInsufficient (fetched : List Product) (items : List ReqItem) : Option String :=
  items.findSome? fun it =>
    (fetched.find? fun p => p.id = it.productId).bind fun p =>
      if p.stock < (it.quantity : Int) then some p.name else none

/-- A deterministic stand-in for the generated `@default(uuid())` order
numbers: a syntactically valid v4 UUID determined by the row counter. -/
def uuidFromNat (n : Nat) : String :=
  let hex := (Nat.toDigits 16 n)
  let padded := List.replicate (12 - hex.length) '0' ++ hex
  "00000000-0000-4000-8000-" ++ String.mk padded

/-- `total` as the handler computes it: running sum of current unit price
times quantity, in item order. -/
def computeTotal (fetched : List Product) (items : List ReqItem) : Nat :=
  items.foldl
    (fun acc it =>
      acc + (((fetched.find? fun p => p.id = it.productId).map Product.price).getD 0)
        * it.quantity)
    0

/-- The order-item rows created inside the transaction, carrying the
unit-price snapshots. -/
def snapshotItems (fetched : List Product) (items : List ReqItem) (orderId nextId : Nat) :
    List OrderItem :=
  (items.enum.map fun (k, it) =>
    { id := nextId + 1 + k
      orderId := orderId
      productId := it.productId
      quantity := it.quantity
      price := (((fetched.find? fun p => p.id = it.productId).map Product.price).getD 0) })

/-- The order row built inside the creation transaction. -/
def newOrderOf (db : DB) (phoneNumber : String) (items : List ReqItem) (userId : Nat) :
    Order :=
  { id := db.nextId
    orderNumber := uuidFromNat db.nextId
    phoneNumber := phoneNumber
    userId := some userId
    total := computeTotal (fetchActive db (items.map ReqItem.productId)) items
    status := "PENDING"
    statusHistory := []
    createdAt := db.nextId }

/-- The audit entry of the creation transaction. -/
def createAudit (db : DB) (userId : Nat) : AuditEntry :=
  { userId := some userId, action := "CREATE_ORDER", entityId := toString db.nextId }

/-- All writes of the creation `$transaction`, as one commit unit: the
order row, one item row per line, one stock decrement per line, the audit
entry, and the bumped id supply. -/
def createTx (db : DB) (phoneNumber : String) (items : List ReqItem) (userId : Nat) :
    Commit :=
  [DbWrite.insertOrder (newOrderOf db phoneNumber items userId)]
    ++ (snapshotItems (fetchActive db (items.map ReqItem.productId)) items
        db.nextId db.nextId).map DbWrite.insertOrderItem
    ++ items.map (fun it => DbWrite.decStock it.productId it.quantity)
    ++ [DbWrite.insertAudit (createAudit db userId),
        DbWrite.setNextId (db.nextId + 1 + items.length)]

/-- `POST /api/orders` (`router.post('/')` in `orders.js`): validation,
then one `$transaction` that checks the products, checks the stock,
creates the order and its items, decrements the stock and writes the
audit entry — or throws, in which case nothing commits and the catch
block maps the message to a 400. -/
def createOrder (db : DB) (phoneNumber : String) (items : List ReqItem)
    (userId : Nat) : HResult :=
  if ¬ createOrderValid items then
    { status := 400, body := .validationErrors, commits := [] }
  else
    let pids := items.map ReqItem.productId
    let fetched := fetchActive db pids
    if fetched.length ≠ pids.length then
      { status := 400, body := .errorMsg "Un ou plusieurs produits invalides"
        commits := [] }
    else
      match firstInsufficient fetched items with
      | some name =>
          { status := 400, body := .errorMsg ("Stock insuffisant pour " ++ name)
            commits := [] }
      | none =>
          { status := 201, body := .orderCreated (newOrderOf db phoneNumber items userId)
            commits := [createTx db phoneNumber items userId] }

/-! ## Status transition (`PATCH /api/orders/:orderNumber/status`) -/

/-- The `validTransitions` table of the PATCH handler, verbatim. -/
def validTransitions : String → Option (List String)
  | "PENDING" => some ["CONFIRMED", "CANCELLED"]
  | "CONFIRMED" => some ["PROCESSING", "CANCELLED"]
  | "PROCESSING" => some ["SHIPPED", "CANCELLED"]
  | "SHIPPED" => some ["DELIVERED", "REFUNDED"]
  | "DELIVERED" => some ["REFUNDED"]
  | "CANCELLED" => some []
  | "REFUNDED" => some []
  | _ => none

/-- Statuses accepted by `body('status').isIn([...])` — note `PENDING` is
absent. -/
def patchStatusWhitelist : List String :=
  ["CONFIRMED", "PROCESSING", "SHIPPED", "DELIVERED", "CANCELLED", "REFUNDED"]

/-- Hexadecimal digit test (for the UUID format check). -/
def isHexChar (c : Char) : Bool :=
  c.isDigit || ('a' ≤ c && c ≤ 'f') || ('A' ≤ c && c ≤ 'F')

/-- Model of `param('orderNumber').isUUID()`: 8-4-4-4-12 hexadecimal
groups separated by hyphens. -/
def isUuid (s : String) : Bool :=
  let cs := s.data
  cs.length = 36 &&
    cs.enum.all fun (i, c) =>
      if i = 8 || i = 13 || i = 18 || i = 23 then c = '-' else isHexChar c

/-- The express-validator gate of the PATCH route: UUID order number,
whitelisted status, note at most 500 characters once trimmed. -/
def patchValid (orderNumber statusStr : String) (note : Option String) : Bool :=
  isUuid orderNumber && patchStatusWhitelist.contains statusStr &&
    (match note with
     | none => true
     | some n => n.trim.length ≤ 500)

/-- The history record pushed by a successful status transition. -/
def patchHist (o : Order) (statusStr : String) (note : Option String) (userId : Nat) :
    HistEntry :=
  { fromStatus := o.status, toStatus := statusStr
    userId := userId, note := note.map String.trim }

/-- The stock-restore calls of a cancellation or refund: one separately
committed `product.update` per order item. -/
def restoreCommits (db : DB) (o : Order) (statusStr : String) : List Commit :=
  if statusStr = "CANCELLED" || statusStr = "REFUNDED" then
    (db.orderItems.filter fun it => it.orderId = o.id).map fun it =>
      [DbWrite.incStock it.productId it.quantity]
  else []

/-- The commit units of a successful status transition, in program order:
the status update (one `prisma.order.update`), the restore calls, the
audit entry — three and more separate top-level calls, not one
transaction. -/
def patchCommits (db : DB) (o : Order) (orderNumber statusStr : String)
    (note : Option String) (userId : Nat) : List Commit :=
  [[DbWrite.setOrderStatus orderNumber statusStr (patchHist o statusStr note userId)]]
    ++ restoreCommits db o statusStr
    ++ [[DbWrite.insertAudit
          { userId := some userId, action := "UPDATE_ORDER_STATUS"
            entityId := toString o.id }]]

/-- `PATCH /api/orders/:orderNumber/status`: validation, 404 on unknown
order, the transition-table check, then — as separate top-level Prisma
calls, hence separate commit units — the status update (with the history
push), one stock increment per order item when cancelling or refunding,
and the audit entry.  An order whose stored status is not a key of the
table makes the JS handler dereference `undefined` and die in the catch
block with a 500 before writing anything. -/
def patchStatus (db : DB) (orderNumber statusStr : String) (note : Option String)
    (userId : Nat) : HResult :=
  if ¬ patchValid orderNumber statusStr note then
    { status := 400, body := .validationErrors, commits := [] }
  else
    match db.orders.find? fun o => o.orderNumber = orderNumber with
    | none => { status := 404, body := .errorMsg "Commande non trouvée", commits := [] }
    | some o =>
      match validTransitions o.status with
      | none =>
          { status := 500
            body := .errorMsg "Erreur lors de la mise à jour du statut"
            commits := [] }
      | some allowed =>
        if ¬ allowed.contains statusStr then
          { status := 400
            body := .errorMsg
              ("Transition invalide de " ++ o.status ++ " vers " ++ statusStr)
            commits := [] }
        else
          { status := 200, body := .payload
            commits := patchCommits db o orderNumber statusStr note userId }

/-! ## Product soft delete (`DELETE /api/products/:id`) -/

/-- The statuses that block a product deletion
(`order.status in ['PENDING','CONFIRMED','PROCESSING']`). -/
def blockingStatuses : List String := ["PENDING", "CONFIRMED", "PROCESSING"]

/-- `prisma.orderItem.count` with the nested order-status filter of the
delete handler. -/
def activeOrderItemCount (db : DB) (pid : Nat) : Nat :=
  (db.orderItems.filter fun it =>
    it.productId = pid &&
      (match db.orders.find? fun o => o.id = it.orderId with
       | some o => blockingStatuses.contains o.status
       | none => false)).length

/-- `DELETE /api/products/:id` (`router.delete('/:id')` in
`products.js`): 404 on unknown product, 409 while the product appears in
a pending/confirmed/processing order, otherwise a soft delete that only
clears `isActive`, plus an audit entry.  The result state is returned
directly (no claim depends on this handler's commit granularity). -/
def deleteProduct (db : DB) (pid : Nat) (userId : Nat) : Nat × RespBody × DB :=
  match db.products.find? fun p => p.id = pid with
  | none => (404, .errorMsg "Produit non trouvé", db)
  | some _ =>
    if 0 < activeOrderItemCount db pid then
      (409, .errorMsg "Impossible de supprimer ce produit, des commandes sont en cours",
        db)
    else
      (200, .okMsg "Produit supprimé avec succès",
        { db with
            products := db.products.map fun p =>
              if p.id = pid then { p with isActive := false } else p
            audits := db.audits ++
              [{ userId := some userId, action := "DELETE_PRODUCT"
                 entityId := toString pid }] })

/-! ## Chat command interpreter (webhook router, `processCommand`) -/

/-- Outbound side effects of the webhook pipeline: a text message sent via
the provider API, or a mark-as-read call. -/
inductive Effect where
  | send (phoneNumber : String) (message : String)
  | markRead (messageId : String)
  deriving Repr, DecidableEq

/-- The command recognised by the `switch` of `processCommand`, applied to
the lower-cased, trimmed text. -/
inductive ChatCmd where
  | showProducts
  | welcome
  | showOrders
  | purchase (productId : Nat)
  | invalidProductId
  | fallback
  deriving Repr, DecidableEq

/-- `text.toLowerCase()`, character by character (the built-in
`String.toLower` is extensionally the same but is defined by
byte-position recursion the kernel cannot evaluate). -/
def jsToLower (s : String) : String := String.mk (s.data.map Char.toLower)

/-- `String.prototype.trim()`: strip whitespace from both ends. -/
def jsTrim (s : String) : String :=
  String.mk (((s.data.dropWhile Char.isWhitespace).reverse.dropWhile
    Char.isWhitespace).reverse)

/-- `String.prototype.startsWith(pre)`. -/
def strStartsWith (s pre : String) : Bool := s.data.take pre.length = pre.data

/-- `parseInt` on a digits-only string. -/
def digitsToNat (s : String) : Nat := s.data.foldl (fun n c => n * 10 + c.toNat - 48) 0

/-- `/^\d+$/` — nonempty, digits only. -/
def isDigits (s : String) : Bool :=
  s.length ≠ 0 && s.data.all Char.isDigit

/-- The dispatch of `processCommand`'s `switch` on the normalized text:
`menu`/`produits` list products, greetings send the welcome text,
`commande`/`commandes` list orders, `acheter <digits>` buys, `acheter`
followed by anything else reports an invalid id, everything else falls
back to the help text.  (`command.replace('acheter ', '')` removes the
first occurrence, which under the `startsWith` guard is the prefix.) -/
def parseCommand (command : String) : ChatCmd :=
  if command = "menu" || command = "produits" then .showProducts
  else if command = "bonjour" || command = "salut" || command = "hello" then .welcome
  else if command = "commande" || command = "commandes" then .showOrders
  else if strStartsWith command "acheter " then
    let pid := jsTrim (String.mk (command.data.drop 8))
    if isDigits pid then .purchase (digitsToNat pid) else .invalidProductId
  else .fallback

/-- The welcome text of `sendWelcomeMessage`. -/
def welcomeText : String :=
  "🎉 Bienvenue sur WhatsApp Commerce!\n\nJe suis votre assistant shopping. Voici ce que je peux faire:\n\n📱 Tapez \"menu\" - Voir nos produits\n🛍️ Tapez \"commande\" - Voir vos commandes\n💬 Tapez \"aide\" - Obtenir de l'aide\n\nComment puis-je vous aider aujourd'hui?"

/-- One listing line of `showProducts`. -/
def productLine (k : Nat) (p : Product) : String :=
  toString (k + 1) ++ ". *" ++ p.name ++ "*\n   Prix: " ++ toString p.price ++
    "€\n   Stock: " ++ toString p.stock ++ " unités\n   _Tapez \"acheter " ++
    toString p.id ++ "\" pour commander_\n\n"

/-- `showProducts`: up to 10 active, in-stock products, or the
out-of-stock notice. -/
def showProducts (db : DB) (phone : String) : DB × List Effect :=
  let prods := (db.products.filter fun p => p.isActive && 0 < p.stock).take 10
  if prods.length = 0 then
    (db, [.send phone "Aucun produit disponible pour le moment."])
  else
    (db, [.send phone
      (prods.enum.foldl (fun acc (k, p) => acc ++ productLine k p)
        "🛍️ *Nos produits disponibles:*\n\n")])

/-- One listing line of `showOrders` (`toLocaleDateString` replaced by the
modelled creation counter). -/
def orderLine (o : Order) : String :=
  "Commande #" ++ toString o.id ++ "\nDate: " ++ toString o.createdAt ++
    "\nStatut: " ++ o.status ++ "\nTotal: " ++ toString o.total ++ "€\n---\n"

/-- `showOrders`: the sender's five most recent orders (creation order
descending), or the no-orders notice. -/
def showOrders (db : DB) (phone : String) : DB × List Effect :=
  let orders := ((db.orders.filter fun o => o.phoneNumber = phone).reverse).take 5
  if orders.length = 0 then
    (db, [.send phone "Vous n'avez pas encore de commandes."])
  else
    (db, [.send phone
      (orders.foldl (fun acc o => acc ++ orderLine o)
        "📦 *Vos dernières commandes:*\n\n")])

/-- `handlePurchase`: re-validate the product and its stock, then one
transaction creating a one-line order (status the lowercase string
`'pending'`, total the current price) and writing the decremented stock
back, then the confirmation message. -/
def handlePurchase (db : DB) (phone : String) (pid : Nat) : DB × List Effect :=
  if pid < 1 then (db, [.send phone "ID de produit invalide."])
  else
    match db.products.find? fun p => p.id = pid with
    | none => (db, [.send phone "Ce produit n'existe pas."])
    | some product =>
      if product.stock < 1 then
        (db, [.send phone "Désolé, ce produit est en rupture de stock."])
      else
        let oid := db.nextId
        let newOrder : Order :=
          { id := oid, orderNumber := uuidFromNat oid, phoneNumber := phone
            userId := none, total := product.price, status := "pending"
            statusHistory := [], createdAt := oid }
        let item : OrderItem :=
          { id := oid + 1, orderId := oid, productId := pid
            quantity := 1, price := product.price }
        let db' :=
          { db with
              orders := db.orders ++ [newOrder]
              orderItems := db.orderItems ++ [item]
              products := db.products.map fun p =>
                if p.id = pid then { p with stock := product.stock - 1 } else p
              nextId := oid + 2 }
        (db', [.send phone
          ("✅ Commande confirmée!\n\nProduit: " ++ product.name ++ "\nPrix: " ++
            toString product.price ++ "€\nNuméro de commande: #" ++ toString oid ++
            "\n\nUn conseiller vous contactera pour finaliser le paiement et la livraison.")])

/-- The reply of the length guard. -/
def tooLongText : String := "Message trop long. Tapez 'menu' pour voir les options."

/-- The fallback help text. -/
def fallbackText : String :=
  "Désolé, je n'ai pas compris. Tapez 'menu' pour voir les options disponibles."

/-- `processCommand`: nothing on an empty text, the length guard on the
normalized text, then the `switch` dispatch. -/
def processCommand (db : DB) (phone : String) (text : String) : DB × List Effect :=
  if text = "" then (db, [])
  else
    let command := jsTrim (jsToLower text)
    if 1000 < command.length then (db, [.send phone tooLongText])
    else
      match parseCommand command with
      | .showProducts => showProducts db phone
      | .welcome => (db, [.send phone welcomeText])
      | .showOrders => showOrders db phone
      | .purchase pid => handlePurchase db phone pid
      | .invalidProductId => (db, [.send phone "ID de produit invalide."])
      | .fallback => (db, [.send phone fallbackText])

/-! ## Webhook ingestion (`POST /webhook`) -/

/-- The provider-facing configuration. -/
structure Env where
  appSecret : Option String
  deriving Repr, DecidableEq

/-- An inbound message object as the handler reads it
(`messages[0]`). -/
structure WaMsg where
  id : String
  msgType : Option String
  textBody : Option String
  timestamp : String
  deriving Repr, DecidableEq

/-- A contact object (`contacts?.[0]`). -/
structure WaContact where
  waId : String
  profileName : Option String
  deriving Repr, DecidableEq

/-- One element of `entry[*].changes`. -/
structure WaChange where
  field : String
  messages : Option (List WaMsg)
  contacts : List WaContact
  deriving Repr, DecidableEq

/-- One element of `body.entry`. -/
structure WaEntry where
  changes : List WaChange
  deriving Repr, DecidableEq

/-- The parsed webhook body as far as the handler navigates it:
`hasObject` is the truthiness of `body.object`, `entry` is `none` when
`body.entry` is absent or not an array. -/
structure ParsedBody where
  hasObject : Bool
  entry : Option (List WaEntry)
  deriving Repr, DecidableEq

/-- A POST request as the handler sees it: the signature header, the raw
body bytes, and the result of `JSON.parse` on them (`none` when parsing
throws). -/
structure WebhookReq where
  signature : Option String
  rawBody : String
  parsed : Option ParsedBody
  deriving Repr, DecidableEq

/-- `verifyWebhookSignature`: false when no app secret is configured,
otherwise exact equality of the header with `sha256=` followed by the
hex HMAC of the raw body.  The HMAC itself is the `crypto` library's;
the model abstracts it as the function parameter `mac`. -/
def verifyWebhookSignature (mac : String → String → String) (env : Env)
    (payload : String) (signature : Option String) : Bool :=
  match env.appSecret with
  | none => false
  | some secret =>
    match signature with
    | none => false
    | some s => s = "sha256=" ++ mac secret payload

/-- `contact.wa_id?.replace(/[^0-9]/g, '')`. -/
def digitsOf (s : String) : String := String.mk (s.data.filter Char.isDigit)

/-- Processing of one element of `changes`: skip anything that is not a
message with a contact and a 10-digit phone number, otherwise persist the
row (provider id only inside `metadata`), mark as read, and run the
command interpreter. -/
def processChange (mdb : DB × List Effect) (ch : WaChange) : DB × List Effect :=
  let (db, effs) := mdb
  if ch.field ≠ "messages" then (db, effs)
  else
    match ch.messages with
    | none => (db, effs)
    | some msgs =>
      match msgs.head? with
      | none => (db, effs)
      | some m =>
        match ch.contacts.head? with
        | none => (db, effs)
        | some c =>
          let phone := digitsOf c.waId
          if phone.length < 10 then (db, effs)
          else
            let row : MessageRow :=
              { phoneNumber := phone
                message := m.textBody.getD ""
                messageType := m.msgType.getD "unknown"
                status := "received"
                metaMessageId := m.id
                metaTimestamp := m.timestamp
                metaContactName := c.profileName }
            let db1 := { db with messages := db.messages ++ [row] }
            let (db2, effs2) := processCommand db1 phone (m.textBody.getD "")
            (db2, effs ++ [.markRead m.id] ++ effs2)

/-- The nested entry/changes loop of the POST handler. -/
def processEntries (db : DB) (entries : List WaEntry) : DB × List Effect :=
  entries.foldl (fun acc e => e.changes.foldl processChange acc) (db, [])

/-- `POST /webhook` (`router.post('/')` of the webhook router): the
signature gate (401 before anything else), the outer catch turning a
JSON.parse failure into a 200, the structure check answering 400, then
the 200 followed by asynchronous processing of every entry. -/
def webhookPost (mac : String → String → String) (env : Env) (db : DB)
    (req : WebhookReq) : Nat × List Effect × DB :=
  if ¬ verifyWebhookSignature mac env req.rawBody req.signature then
    (401, [], db)
  else
    match req.parsed with
    | none => (200, [], db)
    | some body =>
      if ¬ (body.hasObject && body.entry.isSome) then (400, [], db)
      else
        let (db', effs) := processEntries db (body.entry.getD [])
        (200, effs, db')

/-! ## Query helpers used by the theorem statements -/

/-- Stock of the product with id `pid` (0 when absent). -/
def stockOf (db : DB) (pid : Nat) : Int :=
  (((db.products.find? fun p => p.id = pid).map Product.stock).getD 0)

/-- Current unit price of the product with id `pid` (0 when absent). -/
def priceOf (db : DB) (pid : Nat) : Nat :=
  (((db.products.find? fun p => p.id = pid).map Product.price).getD 0)

/-- Status of the order with the given order number. -/
def statusOf (db : DB) (orderNumber : String) : Option String :=
  ((db.orders.find? fun o => o.orderNumber = orderNumber).map Order.status)

/-- Status history of the order with the given order number. -/
def historyOf (db : DB) (orderNumber : String) : Option (List HistEntry) :=
  ((db.orders.find? fun o => o.orderNumber = orderNumber).map Order.statusHistory)

/-- Quantity held by the order `oid` for product `pid`. -/
def reservedQty (db : DB) (oid : Nat) (pid : Nat) : Int :=
  (((db.orderItems.filter fun it => it.orderId = oid).filter
      fun it => it.productId = pid).map fun it => (it.quantity : Int)).sum

/-- Count of a chat reply (`sendMessage`) among webhook effects. -/
def sendCount (effs : List Effect) : Nat :=
  (effs.filter fun e => match e with | .send _ _ => true | _ => false).length

/-! ## Generic list lemmas -/

/-- In a list whose keys are pairwise distinct, searching for a member's
key finds exactly that member. -/
theorem find?_key_eq {α β : Type _} [DecidableEq β] (key : α → β) (l : List α)
    (hnd : (l.map key).Nodup) (a : α) (ha : a ∈ l) :
    l.find? (fun x => decide (key x = key a)) = some a := by
  induction l with
  | nil => cases ha
  | cons x xs ih =>
    rcases List.mem_cons.mp ha with h | h
    · subst h; simp [List.find?]
    · have hne : key x ≠ key a := by
        intro he
        have hmem : key a ∈ xs.map key := List.mem_map_of_mem key h
        rw [← he] at hmem
        exact (List.nodup_cons.mp hnd).1 hmem
      have hd : (decide (key x = key a)) = false := decide_eq_false hne
      simp [List.find?, hd]
      exact ih (List.nodup_cons.mp hnd).2 h

/-- `find?` commutes with a key-preserving map. -/
theorem find?_map_keyed {α β : Type _} [DecidableEq β] (key : α → β) (f : α → α)
    (hf : ∀ x, key (f x) = key x) (l : List α) (k : β) :
    (l.map f).find? (fun x => decide (key x = k)) =
      (l.find? fun x => decide (key x = k)).map f := by
  induction l with
  | nil => rfl
  | cons x xs ih =>
    by_cases h : key x = k
    · simp [List.find?, hf, h]
    · have hd : (decide (key x = k)) = false := decide_eq_false h
      have hd' : (decide (key (f x) = k)) = false := decide_eq_false (by rw [hf]; exact h)
      simp [List.find?, hd, hd', ih]

/-! ## Commit application lemmas -/

/-- The stock-decrement loop of the creation transaction, as a pure fold
on the product table. -/
def decsApply (prods : List Product) (items : List ReqItem) : List Product :=
  items.foldl
    (fun ps it => ps.map fun p =>
      if p.id = it.productId then { p with stock := p.stock - it.quantity } else p)
    prods

/-- The stock-restore loop of the status PATCH handler, as a pure fold on
the product table. -/
def incsApply (prods : List Product) (items : List OrderItem) : List Product :=
  items.foldl
    (fun ps it => ps.map fun p =>
      if p.id = it.productId then { p with stock := p.stock + it.quantity } else p)
    prods

theorem applyCommit_append (db : DB) (c1 c2 : Commit) :
    applyCommit db (c1 ++ c2) = applyCommit (applyCommit db c1) c2 :=
  List.foldl_append ..

theorem runCommits_append (db : DB) (cs1 cs2 : List Commit) :
    runCommits db (cs1 ++ cs2) = runCommits (runCommits db cs1) cs2 :=
  List.foldl_append ..

theorem runCommits_singletons (db : DB) {α : Type _} (l : List α) (f : α → DbWrite) :
    runCommits db (l.map fun a => [f a]) = l.foldl (fun d a => applyWrite d (f a)) db := by
  induction l generalizing db with
  | nil => rfl
  | cons x xs ih => simp [runCommits, applyCommit, List.foldl] at ih ⊢; exact ih _

theorem foldl_itemInserts (rows : List OrderItem) (db : DB) :
    ((rows.map DbWrite.insertOrderItem).foldl applyWrite db) =
      { db with orderItems := db.orderItems ++ rows } := by
  induction rows generalizing db with
  | nil => simp
  | cons r rs ih => simp [applyWrite, ih]

theorem foldl_decs (items : List ReqItem) (db : DB) :
    ((items.map fun it => DbWrite.decStock it.productId it.quantity).foldl applyWrite db) =
      { db with products := decsApply db.products items } := by
  induction items generalizing db with
  | nil => simp [decsApply]
  | cons it its ih => simp [applyWrite, ih, decsApply, List.foldl]

theorem foldl_incs_writes (items : List OrderItem) (db : DB) :
    (items.foldl (fun d it => applyWrite d (DbWrite.incStock it.productId it.quantity)) db) =
      { db with products := incsApply db.products items } := by
  induction items generalizing db with
  | nil => simp [incsApply]
  | cons it its ih => rw [List.foldl_cons, ih]; rfl

/-- Total quantity requested for product `pid` across the request lines. -/
def reqTotal (items : List ReqItem) (pid : Nat) : Int :=
  ((items.filter fun it => it.productId = pid).map fun it => (it.quantity : Int)).sum

/-- Total quantity restored for product `pid` across a list of order
items. -/
def incTotal (items : List OrderItem) (pid : Nat) : Int :=
  ((items.filter fun it => it.productId = pid).map fun it => (it.quantity : Int)).sum

theorem find?_decsApply (items : List ReqItem) (prods : List Product) (pid : Nat) :
    (decsApply prods items).find? (fun p => decide (p.id = pid)) =
      (prods.find? fun p => decide (p.id = pid)).map
        (fun p => { p with stock := p.stock - reqTotal items pid }) := by
  induction items generalizing prods with
  | nil =>
    cases hf : prods.find? fun p => decide (p.id = pid) <;>
      simp [decsApply, reqTotal, hf]
  | cons it its ih =>
    have step : decsApply prods (it :: its) =
        decsApply (prods.map fun p =>
          if p.id = it.productId then { p with stock := p.stock - it.quantity } else p) its := rfl
    rw [step, ih,
      find?_map_keyed Product.id _ (fun p => by by_cases hc : p.id = it.productId <;> simp [hc])]
    cases hf : prods.find? fun p => decide (p.id = pid) with
    | none => simp
    | some p =>
      have hpid : p.id = pid := by
        have := List.find?_some hf
        simpa using this
      by_cases hip : it.productId = pid
      · have hcond : p.id = it.productId := by rw [hpid, hip]
        have hre : reqTotal (it :: its) pid = (it.quantity : Int) + reqTotal its pid := by
          simp [reqTotal, List.filter_cons, hip]
        have hst : p.stock - (it.quantity : Int) - reqTotal its pid =
            p.stock - ((it.quantity : Int) + reqTotal its pid) := by omega
        simp only [Option.map_some', Option.some.injEq, hre]
        rw [if_pos hcond]
        simp only [Product.mk.injEq]
        exact ⟨trivial, trivial, trivial, hst, trivial⟩
      · have hcond : ¬ p.id = it.productId := by rw [hpid]; exact fun h => hip h.symm
        have hre : reqTotal (it :: its) pid = reqTotal its pid := by
          simp [reqTotal, List.filter_cons, hip]
        simp only [Option.map_some', Option.some.injEq, hre]
        rw [if_neg hcond]

theorem decsApply_nonneg (items : List ReqItem) (prods : List Product)
    (hnd : (items.map ReqItem.productId).Nodup)
    (hchk : ∀ it ∈ items, ∀ p ∈ prods, p.id = it.productId → (it.quantity : Int) ≤ p.stock)
    (h0 : ∀ p ∈ prods, 0 ≤ p.stock) :
    ∀ p ∈ decsApply prods items, 0 ≤ p.stock := by
  induction items generalizing prods with
  | nil => exact h0
  | cons it its ih =>
    rw [List.map_cons, List.nodup_cons] at hnd
    obtain ⟨hhead, hnd'⟩ := hnd
    refine ih _ hnd' ?_ ?_
    · intro it' hit' p' hp' hid
      rcases List.mem_map.mp hp' with ⟨p, hp, hpe⟩
      by_cases hc : p.id = it.productId
      · exfalso
        have hpid' : p'.id = p.id := by rw [← hpe]; simp [hc]
        apply hhead
        have heq : it'.productId = it.productId := by rw [← hid, hpid', hc]
        rw [← heq]
        exact List.mem_map_of_mem ReqItem.productId hit'
      · rw [if_neg hc] at hpe
        subst hpe
        exact hchk it' (List.mem_cons_of_mem _ hit') p hp hid
    · intro p' hp'
      rcases List.mem_map.mp hp' with ⟨p, hp, hpe⟩
      by_cases hc : p.id = it.productId
      · have hq := hchk it (List.mem_cons_self it its) p hp hc
        rw [← hpe]
        simp [hc]
        omega
      · rw [if_neg hc] at hpe
        subst hpe
        exact h0 p hp

theorem find?_incsApply (items : List OrderItem) (prods : List Product) (pid : Nat) :
    (incsApply prods items).find? (fun p => decide (p.id = pid)) =
      (prods.find? fun p => decide (p.id = pid)).map
        (fun p => { p with stock := p.stock + incTotal items pid }) := by
  induction items generalizing prods with
  | nil =>
    cases hf : prods.find? fun p => decide (p.id = pid) <;>
      simp [incsApply, incTotal, hf]
  | cons it its ih =>
    have step : incsApply prods (it :: its) =
        incsApply (prods.map fun p =>
          if p.id = it.productId then { p with stock := p.stock + it.quantity } else p) its := rfl
    rw [step, ih,
      find?_map_keyed Product.id _ (fun p => by by_cases hc : p.id = it.productId <;> simp [hc])]
    cases hf : prods.find? fun p => decide (p.id = pid) with
    | none => simp
    | some p =>
      have hpid : p.id = pid := by
        have := List.find?_some hf
        simpa using this
      by_cases hip : it.productId = pid
      · have hcond : p.id = it.productId := by rw [hpid, hip]
        have hre : incTotal (it :: its) pid = (it.quantity : Int) + incTotal its pid := by
          simp [incTotal, List.filter_cons, hip]
        have hst : p.stock + (it.quantity : Int) + incTotal its pid =
            p.stock + ((it.quantity : Int) + incTotal its pid) := by omega
        simp only [Option.map_some', Option.some.injEq, hre]
        rw [if_pos hcond]
        simp only [Product.mk.injEq]
        exact ⟨trivial, trivial, trivial, hst, trivial⟩
      · have hcond : ¬ p.id = it.productId := by rw [hpid]; exact fun h => hip h.symm
        have hre : incTotal (it :: its) pid = incTotal its pid := by
          simp [incTotal, List.filter_cons, hip]
        simp only [Option.map_some', Option.some.injEq, hre]
        rw [if_neg hcond]

theorem incsApply_nonneg (items : List OrderItem) (prods : List Product)
    (h0 : ∀ p ∈ prods, 0 ≤ p.stock) :
    ∀ p ∈ incsApply prods items, 0 ≤ p.stock := by
  induction items generalizing prods with
  | nil => exact h0
  | cons it its ih =>
    refine ih _ ?_
    intro p' hp'
    rcases List.mem_map.mp hp' with ⟨p, hp, hpe⟩
    by_cases hc : p.id = it.productId
    · have := h0 p hp
      rw [← hpe]
      simp [hc]
      omega
    · rw [if_neg hc] at hpe
      subst hpe
      exact h0 p hp

theorem decsApply_map_id (items : List ReqItem) (prods : List Product) :
    (decsApply prods items).map Product.id = prods.map Product.id := by
  induction items generalizing prods with
  | nil => rfl
  | cons it its ih =>
    have step : decsApply prods (it :: its) =
        decsApply (prods.map fun p =>
          if p.id = it.productId then { p with stock := p.stock - it.quantity } else p) its := rfl
    rw [step, ih, List.map_map]
    apply List.map_congr_left
    intro p _
    by_cases hc : p.id = it.productId <;> simp [hc]

theorem incsApply_map_id (items : List OrderItem) (prods : List Product) :
    (incsApply prods items).map Product.id = prods.map Product.id := by
  induction items generalizing prods with
  | nil => rfl
  | cons it its ih =>
    have step : incsApply prods (it :: its) =
        incsApply (prods.map fun p =>
          if p.id = it.productId then { p with stock := p.stock + it.quantity } else p) its := rfl
    rw [step, ih, List.map_map]
    apply List.map_congr_left
    intro p _
    by_cases hc : p.id = it.productId <;> simp [hc]

/-! ## Characterization of the product-availability check -/

/-- Some active product with id `pid` exists. -/
abbrev ActivePresent (db : DB) (pid : Nat) : Prop :=
  ∃ p ∈ db.products, p.id = pid ∧ p.isActive = true

theorem mem_fetchActive {db : DB} {pids : List Nat} {p : Product} :
    p ∈ fetchActive db pids ↔ p ∈ db.products ∧ p.id ∈ pids ∧ p.isActive = true := by
  simp [fetchActive, List.mem_filter, List.elem_iff, and_assoc, List.contains]

theorem fetchActive_mapid_nodup {db : DB} (pids : List Nat)
    (hdb : (db.products.map Product.id).Nodup) :
    ((fetchActive db pids).map Product.id).Nodup :=
  ((List.filter_sublist db.products).map Product.id).nodup hdb

theorem nodup_key_eq {α β : Type _} [DecidableEq β] (key : α → β) {l : List α}
    (hnd : (l.map key).Nodup) {p q : α} (hp : p ∈ l) (hq : q ∈ l)
    (hk : key p = key q) : p = q := by
  have h1 := find?_key_eq key l hnd p hp
  have h2 := find?_key_eq key l hnd q hq
  rw [hk] at h1
  rw [h1] at h2
  exact Option.some.inj h2

theorem fetchActive_length_eq {db : DB} {pids : List Nat}
    (hdb : (db.products.map Product.id).Nodup) (hnd : pids.Nodup)
    (hall : ∀ pid ∈ pids, ActivePresent db pid) :
    (fetchActive db pids).length = pids.length := by
  have hmem : ∀ a, a ∈ (fetchActive db pids).map Product.id ↔ a ∈ pids := by
    intro a
    constructor
    · intro ha
      rcases List.mem_map.mp ha with ⟨p, hp, hpe⟩
      exact hpe ▸ (mem_fetchActive.mp hp).2.1
    · intro ha
      rcases hall a ha with ⟨p, hp, hpid, hact⟩
      exact List.mem_map.mpr ⟨p, mem_fetchActive.mpr ⟨hp, hpid ▸ ha, hact⟩, hpid⟩
  have hperm : List.Perm ((fetchActive db pids).map Product.id) pids :=
    (List.perm_ext_iff_of_nodup (fetchActive_mapid_nodup pids hdb) hnd).mpr hmem
  simpa using hperm.length_eq

theorem fetchActive_length_inv {db : DB} {pids : List Nat}
    (hdb : (db.products.map Product.id).Nodup)
    (hlen : (fetchActive db pids).length = pids.length) :
    pids.Nodup ∧ ∀ pid ∈ pids, ActivePresent db pid := by
  have hnodup := fetchActive_mapid_nodup pids hdb
  have hsub : (fetchActive db pids).map Product.id ⊆ pids := by
    intro a ha
    rcases List.mem_map.mp ha with ⟨p, hp, hpe⟩
    exact hpe ▸ (mem_fetchActive.mp hp).2.1
  have hsp := List.subperm_of_subset hnodup hsub
  have hperm : List.Perm ((fetchActive db pids).map Product.id) pids :=
    hsp.perm_of_length_le (by simp [hlen])
  refine ⟨hperm.nodup hnodup, ?_⟩
  intro pid hpid
  have : pid ∈ (fetchActive db pids).map Product.id := hperm.mem_iff.mpr hpid
  rcases List.mem_map.mp this with ⟨p, hp, hpe⟩
  rcases mem_fetchActive.mp hp with ⟨hpd, _, hact⟩
  exact ⟨p, hpd, hpe, hact⟩

/-- A present active product is what the create handler's inner `find`
returns, both in the fetched sublist and in the full table. -/
theorem find?_fetchActive {db : DB} {pids : List Nat} {p : Product}
    (hdb : (db.products.map Product.id).Nodup) (hp : p ∈ db.products)
    (hact : p.isActive = true) (hmem : p.id ∈ pids) :
    (fetchActive db pids).find? (fun q => decide (q.id = p.id)) = some p :=
  find?_key_eq Product.id _ (fetchActive_mapid_nodup pids hdb) p
    (mem_fetchActive.mpr ⟨hp, hmem, hact⟩)

theorem find?_products {db : DB} {p : Product}
    (hdb : (db.products.map Product.id).Nodup) (hp : p ∈ db.products) :
    db.products.find? (fun q => decide (q.id = p.id)) = some p :=
  find?_key_eq Product.id _ hdb p hp

/-- With every line's product present and active, passing the stock loop
means every line's quantity is within the stored stock. -/
theorem firstInsufficient_none {db : DB} {items : List ReqItem}
    (hdb : (db.products.map Product.id).Nodup)
    (hall : ∀ pid ∈ items.map ReqItem.productId, ActivePresent db pid)
    (hnone : firstInsufficient (fetchActive db (items.map ReqItem.productId)) items = none) :
    ∀ it ∈ items, ∀ p ∈ db.products, p.id = it.productId →
      (it.quantity : Int) ≤ p.stock := by
  intro it hit p hp hpid
  have hmemid : it.productId ∈ items.map ReqItem.productId :=
    List.mem_map_of_mem ReqItem.productId hit
  have hfind := find?_fetchActive hdb hp (by
    rcases hall _ hmemid with ⟨q, hq, hqid, hqact⟩
    have : q = p := nodup_key_eq Product.id hdb hq hp (by rw [hqid, hpid])
    exact this ▸ hqact) (hpid ▸ hmemid)
  have hfn := (List.findSome?_eq_none_iff.mp hnone) it hit
  rw [hpid] at hfind
  rw [hfind] at hfn
  rw [Option.some_bind] at hfn
  by_contra hlt
  rw [if_pos (by omega)] at hfn
  exact Option.noConfusion hfn

/-- Failing the stock loop names a present, active product one of whose
lines exceeds its stock. -/
theorem firstInsufficient_some {db : DB} {items : List ReqItem} {name : String}
    (hsome :
      firstInsufficient (fetchActive db (items.map ReqItem.productId)) items = some name) :
    ∃ p ∈ db.products, p.isActive = true ∧
      (∃ it ∈ items, it.productId = p.id ∧ p.stock < (it.quantity : Int)) ∧
      name = p.name := by
  rcases List.exists_of_findSome?_eq_some hsome with ⟨it, hit, hf⟩
  rcases Option.bind_eq_some.mp hf with ⟨p, hfind, hcase⟩
  have hpmem := List.mem_of_find?_eq_some hfind
  rcases mem_fetchActive.mp hpmem with ⟨hpd, _, hact⟩
  have hpid : p.id = it.productId := by
    have := List.find?_some hfind
    simpa using this
  by_cases hlt : p.stock < (it.quantity : Int)
  · rw [if_pos hlt] at hcase
    exact ⟨p, hpd, hact, ⟨it, hit, hpid.symm, hlt⟩, (Option.some.inj hcase).symm⟩
  · rw [if_neg hlt] at hcase
    exact absurd hcase Option.noConfusion

/-! ## The computed total and the snapshots -/

theorem foldl_add_map {α : Type _} (f : α → Nat) (l : List α) (acc : Nat) :
    l.foldl (fun a x => a + f x) acc = acc + (l.map f).sum := by
  induction l generalizing acc with
  | nil => simp
  | cons x xs ih => simp [List.foldl, ih]; omega

/-- The total as the specification states it: sum over lines of current
unit price times quantity. -/
def linesSum (db : DB) (items : List ReqItem) : Nat :=
  (items.map fun it => priceOf db it.productId * it.quantity).sum

theorem find?_fetchActive_total {db : DB} {items : List ReqItem} {it : ReqItem}
    (hdb : (db.products.map Product.id).Nodup)
    (hall : ∀ pid ∈ items.map ReqItem.productId, ActivePresent db pid)
    (hit : it ∈ items) :
    ∃ p ∈ db.products,
      (fetchActive db (items.map ReqItem.productId)).find?
          (fun q => decide (q.id = it.productId)) = some p ∧
        db.products.find? (fun q => decide (q.id = it.productId)) = some p := by
  have hmemid : it.productId ∈ items.map ReqItem.productId :=
    List.mem_map_of_mem ReqItem.productId hit
  rcases hall _ hmemid with ⟨p, hp, hpid, hact⟩
  refine ⟨p, hp, ?_, ?_⟩
  · have := find?_fetchActive hdb hp hact (hpid ▸ hmemid)
    rwa [hpid] at this
  · have := find?_products hdb hp
    rwa [hpid] at this

theorem computeTotal_eq {db : DB} {items : List ReqItem}
    (hdb : (db.products.map Product.id).Nodup)
    (hall : ∀ pid ∈ items.map ReqItem.productId, ActivePresent db pid) :
    computeTotal (fetchActive db (items.map ReqItem.productId)) items =
      linesSum db items := by
  rw [computeTotal, foldl_add_map, Nat.zero_add, linesSum]
  apply congrArg
  apply List.map_congr_left
  intro it hit
  rcases find?_fetchActive_total hdb hall hit with ⟨p, _, hf1, hf2⟩
  rw [hf1, priceOf, hf2]

theorem enum_map_of_snd {α β : Type _} (l : List α) (g : α → β) :
    l.enum.map (fun x => g x.2) = l.map g := by
  have h1 : l.enum.map (fun x => g x.2) = (l.enum.map Prod.snd).map g := by
    rw [List.map_map]; rfl
  have h2 : l.enum.map Prod.snd = l := List.enumFrom_map_snd 0 l
  rw [h1, h2]

theorem snapshotItems_proj {db : DB} {items : List ReqItem} (oid nid : Nat)
    (hdb : (db.products.map Product.id).Nodup)
    (hall : ∀ pid ∈ items.map ReqItem.productId, ActivePresent db pid) :
    (snapshotItems (fetchActive db (items.map ReqItem.productId)) items oid nid).map
        (fun r => (r.orderId, r.productId, r.quantity, r.price)) =
      items.map fun it => (oid, it.productId, it.quantity, priceOf db it.productId) := by
  rw [snapshotItems, List.map_map]
  have hcomp : ((fun r : OrderItem => (r.orderId, r.productId, r.quantity, r.price)) ∘
      (fun (x : Nat × ReqItem) =>
        ({ id := nid + 1 + x.1, orderId := oid, productId := x.2.productId
           quantity := x.2.quantity
           price := (((fetchActive db (items.map ReqItem.productId)).find?
              fun p => p.id = x.2.productId).map Product.price).getD 0 } : OrderItem))) =
      fun (x : Nat × ReqItem) =>
        (oid, x.2.productId, x.2.quantity,
          (((fetchActive db (items.map ReqItem.productId)).find?
              fun p => p.id = x.2.productId).map Product.price).getD 0) := rfl
  rw [hcomp, enum_map_of_snd items (fun it =>
    (oid, it.productId, it.quantity,
      (((fetchActive db (items.map ReqItem.productId)).find?
          fun p => p.id = it.productId).map Product.price).getD 0))]
  apply List.map_congr_left
  intro it hit
  rcases find?_fetchActive_total hdb hall hit with ⟨p, _, hf1, hf2⟩
  rw [hf1, priceOf, hf2]

theorem reqTotal_nodup {items : List ReqItem} {it : ReqItem}
    (hnd : (items.map ReqItem.productId).Nodup) (hit : it ∈ items) :
    reqTotal items it.productId = (it.quantity : Int) := by
  induction items with
  | nil => cases hit
  | cons x xs ih =>
    rw [List.map_cons, List.nodup_cons] at hnd
    rcases List.mem_cons.mp hit with h | h
    · subst h
      have hfilter : xs.filter (fun y => decide (y.productId = it.productId)) = [] := by
        rw [List.filter_eq_nil_iff]
        intro y hy
        simp only [decide_eq_true_eq]
        intro he
        exact hnd.1 (he ▸ List.mem_map_of_mem ReqItem.productId hy)
      simp [reqTotal, List.filter_cons, hfilter]
    · have hne : ¬ x.productId = it.productId := by
        intro he
        exact hnd.1 (he ▸ List.mem_map_of_mem ReqItem.productId h)
      have := ih hnd.2 h
      simpa [reqTotal, List.filter_cons, hne] using this

theorem reqTotal_not_mem {items : List ReqItem} {pid : Nat}
    (h : pid ∉ items.map ReqItem.productId) : reqTotal items pid = 0 := by
  have hfilter : items.filter (fun y => decide (y.productId = pid)) = [] := by
    rw [List.filter_eq_nil_iff]
    intro y hy
    simp only [decide_eq_true_eq]
    intro he
    exact h (he ▸ List.mem_map_of_mem ReqItem.productId hy)
  simp [reqTotal, hfilter]

theorem applyCommit_create (db : DB) (o : Order) (rows : List OrderItem)
    (items : List ReqItem) (a : AuditEntry) (n : Nat) :
    applyCommit db ([DbWrite.insertOrder o]
        ++ rows.map DbWrite.insertOrderItem
        ++ items.map (fun it => DbWrite.decStock it.productId it.quantity)
        ++ [DbWrite.insertAudit a, DbWrite.setNextId n]) =
      { db with
          orders := db.orders ++ [o]
          orderItems := db.orderItems ++ rows
          products := decsApply db.products items
          audits := db.audits ++ [a]
          nextId := n } := by
  rw [applyCommit]
  simp only [List.foldl_append]
  have h1 : List.foldl applyWrite db [DbWrite.insertOrder o] =
      { db with orders := db.orders ++ [o] } := rfl
  rw [h1, foldl_itemInserts, foldl_decs]
  rfl

/-! ## Claim C1 -/

/-- A one-product database used by several concrete checks. -/
def sampleDb : DB :=
  { products := [{ id := 1, name := "Produit", price := 100, stock := 5, isActive := true }]
    orders := [], orderItems := [], messages := [], audits := [], nextId := 10 }

/-- C1, counterexample: a request listing the same active product on two
lines — every referenced product exists, is active, and each line's
quantity is within stock, so the claim requires the order to be created —
is rejected with `InvalidProduct` (the handler compares the number of
distinct active products fetched with the number of lines), and nothing
is persisted. -/
theorem C1_counterexample :
    (∀ p ∈ sampleDb.products, p.isActive = true) ∧
    (∀ it ∈ [ReqItem.mk 1 1, ReqItem.mk 1 1], ∃ p ∈ sampleDb.products,
      p.id = it.productId ∧ (it.quantity : Int) ≤ p.stock) ∧
    createOrderValid [ReqItem.mk 1 1, ReqItem.mk 1 1] = true ∧
    createOrder sampleDb "0612345678" [ReqItem.mk 1 1, ReqItem.mk 1 1] 7 =
      { status := 400, body := .errorMsg "Un ou plusieurs produits invalides"
        commits := [] } ∧
    (createOrder sampleDb "0612345678" [ReqItem.mk 1 1, ReqItem.mk 1 1] 7).status ≠ 201 :=
  ⟨by decide, by decide, by decide, by decide, by decide⟩

/-- C1 (amended): for a validated request whose lines reference pairwise
distinct products: if some line's product is missing or inactive the
handler answers 400 `InvalidProduct` committing nothing; otherwise, if
some line exceeds its product's stock it answers 400 `InsufficientStock`
naming an offending product and committing nothing; otherwise it answers
201 and commits, in one single atomic unit, the order (status `PENDING`,
total = sum of current unit price times quantity), one item per line
carrying the unit-price snapshot, and the stock decrements — a request
with two lines for the same product, however, is rejected as
`InvalidProduct` (see the counterexample). -/
theorem C1_amended (db : DB) (phone : String) (items : List ReqItem) (uid : Nat)
    (hval : createOrderValid items = true)
    (hnd : (items.map ReqItem.productId).Nodup)
    (hdb : (db.products.map Product.id).Nodup) :
    (¬ (∀ pid ∈ items.map ReqItem.productId, ActivePresent db pid) →
      createOrder db phone items uid =
        { status := 400, body := .errorMsg "Un ou plusieurs produits invalides"
          commits := [] }) ∧
    ((∀ pid ∈ items.map ReqItem.productId, ActivePresent db pid) →
      ((∃ it ∈ items, ∃ p ∈ db.products, p.id = it.productId ∧
          p.stock < (it.quantity : Int)) →
        (createOrder db phone items uid).status = 400 ∧
        (createOrder db phone items uid).commits = [] ∧
        ∃ p ∈ db.products, p.isActive = true ∧
          (∃ it ∈ items, it.productId = p.id ∧ p.stock < (it.quantity : Int)) ∧
          (createOrder db phone items uid).body =
            .errorMsg ("Stock insuffisant pour " ++ p.name)) ∧
      ((∀ it ∈ items, ∀ p ∈ db.products, p.id = it.productId →
          (it.quantity : Int) ≤ p.stock) →
        (createOrder db phone items uid).status = 201 ∧
        (createOrder db phone items uid).commits.length = 1 ∧
        (∀ k, runCommits db ((createOrder db phone items uid).commits.take k) = db ∨
          runCommits db ((createOrder db phone items uid).commits.take k) =
            (createOrder db phone items uid).finalState db) ∧
        (∃ o, (createOrder db phone items uid).body = .orderCreated o ∧
          ((createOrder db phone items uid).finalState db).orders = db.orders ++ [o] ∧
          o.status = "PENDING" ∧
          o.total = linesSum db items ∧
          o.phoneNumber = phone ∧
          (((createOrder db phone items uid).finalState db).orderItems.map
              fun r => (r.orderId, r.productId, r.quantity, r.price)) =
            (db.orderItems.map fun r => (r.orderId, r.productId, r.quantity, r.price)) ++
              (items.map fun it =>
                (o.id, it.productId, it.quantity, priceOf db it.productId))) ∧
        (∀ it ∈ items,
          stockOf ((createOrder db phone items uid).finalState db) it.productId =
            stockOf db it.productId - it.quantity) ∧
        (∀ pid, pid ∉ items.map ReqItem.productId →
          stockOf ((createOrder db phone items uid).finalState db) pid =
            stockOf db pid) ∧
        ((createOrder db phone items uid).finalState db).messages = db.messages)) := by
  have hvgate : ¬ ¬ createOrderValid items = true := by simp [hval]
  constructor
  · intro hmiss
    rw [createOrder, if_neg hvgate, if_pos (by
      intro heq
      exact hmiss (fetchActive_length_inv hdb heq).2)]
  · intro hall
    have hlen : (fetchActive db (items.map ReqItem.productId)).length =
        (items.map ReqItem.productId).length :=
      fetchActive_length_eq hdb hnd hall
    constructor
    · intro hbad
      cases hfi : firstInsufficient
          (fetchActive db (items.map ReqItem.productId)) items with
      | none =>
        exfalso
        rcases hbad with ⟨it, hit, p, hp, hpid, hlt⟩
        have := firstInsufficient_none hdb hall hfi it hit p hp hpid
        omega
      | some name =>
        have hres : createOrder db phone items uid =
            { status := 400, body := .errorMsg ("Stock insuffisant pour " ++ name)
              commits := [] } := by
          rw [createOrder, if_neg hvgate, if_neg (by rw [hlen]; exact fun h => h rfl)]
          simp only [hfi]
        rcases firstInsufficient_some hfi with ⟨p, hp, hact, hoff, hname⟩
        exact ⟨by rw [hres], by rw [hres],
          ⟨p, hp, hact, hoff, by rw [hres, hname]⟩⟩
    · intro hok
      cases hfi : firstInsufficient
          (fetchActive db (items.map ReqItem.productId)) items with
      | some name =>
        exfalso
        rcases firstInsufficient_some hfi with ⟨p, hp, _, ⟨it, hit, hpid, hlt⟩, _⟩
        have := hok it hit p hp hpid.symm
        omega
      | none =>
        have hres : createOrder db phone items uid =
            { status := 201, body := .orderCreated (newOrderOf db phone items uid)
              commits := [createTx db phone items uid] } := by
          rw [createOrder, if_neg hvgate, if_neg (by rw [hlen]; exact fun h => h rfl)]
          simp only [hfi]
        have hfs : (createOrder db phone items uid).finalState db =
            { db with
                orders := db.orders ++ [newOrderOf db phone items uid]
                orderItems := db.orderItems ++
                  snapshotItems (fetchActive db (items.map ReqItem.productId))
                    items db.nextId db.nextId
                products := decsApply db.products items
                audits := db.audits ++ [createAudit db uid]
                nextId := db.nextId + 1 + items.length } := by
          rw [hres]
          exact applyCommit_create db _ _ items _ _
        refine ⟨by rw [hres], by rw [hres]; rfl, ?_, ?_, ?_, ?_, ?_⟩
        · intro k
          rw [hres]
          cases k with
          | zero => left; rfl
          | succ k =>
            right
            rw [List.take_succ_cons, List.take_nil]
            rfl
        · refine ⟨newOrderOf db phone items uid, by rw [hres], ?_, rfl, ?_, rfl, ?_⟩
          · rw [hfs]
          · show computeTotal (fetchActive db (items.map ReqItem.productId)) items =
              linesSum db items
            exact computeTotal_eq hdb hall
          · rw [hfs]
            show (db.orderItems ++
              snapshotItems (fetchActive db (items.map ReqItem.productId))
                items db.nextId db.nextId).map _ = _
            rw [List.map_append, snapshotItems_proj db.nextId db.nextId hdb hall]
            rfl
        · intro it hit
          have hmemid : it.productId ∈ items.map ReqItem.productId :=
            List.mem_map_of_mem ReqItem.productId hit
          rcases hall _ hmemid with ⟨p, hp, hpid, hact⟩
          have hfind : db.products.find? (fun q => decide (q.id = it.productId)) =
              some p := by
            have := find?_products hdb hp
            rwa [hpid] at this
          rw [hfs]
          show ((((decsApply db.products items).find?
              fun q => decide (q.id = it.productId)).map Product.stock).getD 0) = _
          rw [find?_decsApply, hfind, reqTotal_nodup hnd hit]
          show p.stock - (it.quantity : Int) = stockOf db it.productId - it.quantity
          rw [stockOf, hfind]
          rfl
        · intro pid hpid
          rw [hfs]
          show ((((decsApply db.products items).find?
              fun q => decide (q.id = pid)).map Product.stock).getD 0) = _
          rw [find?_decsApply, reqTotal_not_mem hpid, stockOf]
          cases db.products.find? fun q => decide (q.id = pid) with
          | none => rfl
          | some p => show p.stock - 0 = p.stock; omega
        · rw [hfs]

/-- C1 (amended), witness: on the one-product database, one line of
quantity 2 succeeds with a 201. -/
theorem C1_amended_witness :
    (createOrder sampleDb "0612345678" [ReqItem.mk 1 2] 7).status = 201 :=
  (((C1_amended sampleDb "0612345678" [ReqItem.mk 1 2] 7 (by decide) (by decide)
      (by decide)).2 (by decide)).2 (by decide)).1

/-! ## Claim C2 -/

/-- A v4-shaped order number used in concrete checks. -/
def uuidSample : String := "00000000-0000-4000-8000-000000000001"

/-- A database with one CONFIRMED order and its one-line item list. -/
def c4Db : DB :=
  { products := [{ id := 1, name := "P", price := 100, stock := 0, isActive := true }]
    orders := [{ id := 1, orderNumber := uuidSample, phoneNumber := "33612345678"
                 userId := none, total := 200, status := "PENDING"
                 statusHistory := [], createdAt := 1 }]
    orderItems := [{ id := 2, orderId := 1, productId := 1, quantity := 2, price := 100 }]
    messages := [], audits := [], nextId := 3 }

/-- A database with one CONFIRMED order. -/
def c2Db : DB :=
  { products := []
    orders := [{ id := 1, orderNumber := uuidSample, phoneNumber := "33612345678"
                 userId := none, total := 200, status := "CONFIRMED"
                 statusHistory := [], createdAt := 1 }]
    orderItems := [], messages := [], audits := [], nextId := 3 }

/-- C2, counterexample: requesting the status `PENDING` for an existing
CONFIRMED order is a status-transition request whose requested status is
not an allowed successor, so the claim requires an `InvalidTransition`
error naming CONFIRMED and PENDING; the code instead rejects it in input
validation (`isIn` omits PENDING) with a generic 400 validation body that
names neither status. -/
theorem C2_counterexample :
    statusOf c2Db uuidSample = some "CONFIRMED" ∧
    patchStatus c2Db uuidSample "PENDING" none 9 =
      { status := 400, body := .validationErrors, commits := [] } ∧
    RespBody.validationErrors ≠
      RespBody.errorMsg "Transition invalide de CONFIRMED vers PENDING" :=
  ⟨by decide, by decide, by decide⟩

/-- C2 (amended): for requests passing input validation (UUID-shaped
order number, requested status among CONFIRMED, PROCESSING, SHIPPED,
DELIVERED, CANCELLED, REFUNDED — PENDING and anything else is rejected
earlier by validation with a generic 400): an unknown order number yields
404; a requested status outside the allowed successors of the current
status yields 400 naming both; and the successor table is exactly
PENDING→{CONFIRMED,CANCELLED}, CONFIRMED→{PROCESSING,CANCELLED},
PROCESSING→{SHIPPED,CANCELLED}, SHIPPED→{DELIVERED,REFUNDED},
DELIVERED→{REFUNDED}, with CANCELLED and REFUNDED terminal. -/
theorem C2_amended (db : DB) (onum statusStr : String) (note : Option String)
    (uid : Nat) (hu : isUuid onum = true) (hw : statusStr ∈ patchStatusWhitelist)
    (hn : ∀ n, note = some n → n.trim.length ≤ 500) :
    (db.orders.find? (fun o => o.orderNumber = onum) = none →
      patchStatus db onum statusStr note uid =
        { status := 404, body := .errorMsg "Commande non trouvée", commits := [] }) ∧
    (∀ o, db.orders.find? (fun o => o.orderNumber = onum) = some o →
      ∀ allowed, validTransitions o.status = some allowed → statusStr ∉ allowed →
        patchStatus db onum statusStr note uid =
          { status := 400
            body := .errorMsg
              ("Transition invalide de " ++ o.status ++ " vers " ++ statusStr)
            commits := [] }) ∧
    (validTransitions "PENDING" = some ["CONFIRMED", "CANCELLED"] ∧
     validTransitions "CONFIRMED" = some ["PROCESSING", "CANCELLED"] ∧
     validTransitions "PROCESSING" = some ["SHIPPED", "CANCELLED"] ∧
     validTransitions "SHIPPED" = some ["DELIVERED", "REFUNDED"] ∧
     validTransitions "DELIVERED" = some ["REFUNDED"] ∧
     validTransitions "CANCELLED" = some [] ∧
     validTransitions "REFUNDED" = some []) := by
  have hpv : patchValid onum statusStr note = true := by
    unfold patchValid
    rw [hu]
    have hc : patchStatusWhitelist.contains statusStr = true := List.elem_iff.mpr hw
    rw [hc]
    cases note with
    | none => rfl
    | some n =>
      have := hn n rfl
      simp [this]
  have hgate : ¬ ¬ patchValid onum statusStr note = true := by simp [hpv]
  refine ⟨?_, ?_, by decide⟩
  · intro hfind
    rw [patchStatus, if_neg hgate, hfind]
  · intro o hfind allowed hvt hns
    rw [patchStatus, if_neg hgate, hfind]
    simp only [hvt]
    rw [if_pos (by
      intro hc
      exact hns (List.elem_iff.mp hc))]

/-- C2 (amended), witness: an unknown order number on an order-free
database yields the 404. -/
theorem C2_amended_witness :
    patchStatus sampleDb uuidSample "CONFIRMED" none 9 =
      { status := 404, body := .errorMsg "Commande non trouvée", commits := [] } :=
  (C2_amended sampleDb uuidSample "CONFIRMED" none 9 (by decide) (by decide)
    (fun n h => nomatch h)).1 rfl

/-! ## Claim C4 -/

theorem restoreCommits_cancel (db : DB) (o : Order) (statusStr : String)
    (hcr : statusStr = "CANCELLED" ∨ statusStr = "REFUNDED") :
    restoreCommits db o statusStr =
      (db.orderItems.filter fun it => it.orderId = o.id).map fun it =>
        [DbWrite.incStock it.productId it.quantity] := by
  rw [restoreCommits, if_pos]
  rcases hcr with h | h <;> simp [h]

theorem runCommits_patch_cancel (db : DB) (o : Order) (onum statusStr : String)
    (note : Option String) (uid : Nat)
    (hcr : statusStr = "CANCELLED" ∨ statusStr = "REFUNDED") :
    runCommits db (patchCommits db o onum statusStr note uid) =
      { db with
          orders := db.orders.map fun o2 =>
            if o2.orderNumber = onum then
              { o2 with status := statusStr,
                        statusHistory :=
                          o2.statusHistory ++ [patchHist o statusStr note uid] }
            else o2
          products :=
            incsApply db.products (db.orderItems.filter fun it => it.orderId = o.id)
          audits := db.audits ++
            [{ userId := some uid, action := "UPDATE_ORDER_STATUS"
               entityId := toString o.id }] } := by
  rw [patchCommits, restoreCommits_cancel db o statusStr hcr]
  simp only [runCommits_append]
  rw [runCommits_singletons]
  rw [show runCommits db
      [[DbWrite.setOrderStatus onum statusStr (patchHist o statusStr note uid)]] =
    { db with orders := db.orders.map fun o2 =>
        if o2.orderNumber = onum then
          { o2 with status := statusStr,
                    statusHistory :=
                      o2.statusHistory ++ [patchHist o statusStr note uid] }
        else o2 } from rfl]
  rw [foldl_incs_writes]
  rfl

theorem runCommits_patch_other (db : DB) (o : Order) (onum statusStr : String)
    (note : Option String) (uid : Nat)
    (hcr : ¬ (statusStr = "CANCELLED" ∨ statusStr = "REFUNDED")) :
    runCommits db (patchCommits db o onum statusStr note uid) =
      { db with
          orders := db.orders.map fun o2 =>
            if o2.orderNumber = onum then
              { o2 with status := statusStr,
                        statusHistory :=
                          o2.statusHistory ++ [patchHist o statusStr note uid] }
            else o2
          audits := db.audits ++
            [{ userId := some uid, action := "UPDATE_ORDER_STATUS"
               entityId := toString o.id }] } := by
  have hb : restoreCommits db o statusStr = [] := by
    rw [restoreCommits, if_neg]
    intro hc
    simp only [Bool.or_eq_true, decide_eq_true_eq] at hc
    exact hcr hc
  rw [patchCommits, hb]
  simp only [runCommits_append]
  rfl

/-- C4, counterexample: cancelling the PENDING order of `c4Db` answers
200 and issues the status write and the stock restore as separate commit
units; after the first unit alone commits (the crash point between the
two separate Prisma calls) the order is already CANCELLED while the
product's stock is still 0 — an intermediate persisted state the claimed
all-or-nothing atomic unit excludes; the restore lands only when the
remaining units also run (final stock 2). -/
theorem C4_counterexample :
    (patchStatus c4Db uuidSample "CANCELLED" none 9).status = 200 ∧
    1 < (patchStatus c4Db uuidSample "CANCELLED" none 9).commits.length ∧
    statusOf (runCommits c4Db
        ((patchStatus c4Db uuidSample "CANCELLED" none 9).commits.take 1)) uuidSample =
      some "CANCELLED" ∧
    stockOf (runCommits c4Db
        ((patchStatus c4Db uuidSample "CANCELLED" none 9).commits.take 1)) 1 = 0 ∧
    stockOf ((patchStatus c4Db uuidSample "CANCELLED" none 9).finalState c4Db) 1 = 2 :=
  ⟨by decide, by decide, by decide, by decide, by decide⟩

/-- C4 (amended): a successful transition to CANCELLED or REFUNDED
answers 200, and once the handler runs to completion the order's status
is updated (with the history entry appended) and every product's stock is
incremented by the total quantity the order holds for it — but the
restoration is issued as one separately committed `product.update` per
item after the status write, not in one atomic unit with it (the commit
list has `2 + number of items` units), so a failure after the status
write can leave the status changed with stock unrestored (see the
counterexample). -/
theorem C4_amended (db : DB) (onum statusStr : String) (note : Option String)
    (uid : Nat) (o : Order)
    (hu : isUuid onum = true) (hw : statusStr ∈ patchStatusWhitelist)
    (hn : ∀ n, note = some n → n.trim.length ≤ 500)
    (hfind : db.orders.find? (fun o2 => o2.orderNumber = onum) = some o)
    (allowed : List String) (hvt : validTransitions o.status = some allowed)
    (hmem : statusStr ∈ allowed)
    (hcr : statusStr = "CANCELLED" ∨ statusStr = "REFUNDED") :
    (patchStatus db onum statusStr note uid).status = 200 ∧
    (patchStatus db onum statusStr note uid).commits.length =
      2 + (db.orderItems.filter fun it => it.orderId = o.id).length ∧
    statusOf ((patchStatus db onum statusStr note uid).finalState db) onum =
      some statusStr ∧
    historyOf ((patchStatus db onum statusStr note uid).finalState db) onum =
      some (o.statusHistory ++ [patchHist o statusStr note uid]) ∧
    (∀ pid, (∃ p ∈ db.products, p.id = pid) →
      stockOf ((patchStatus db onum statusStr note uid).finalState db) pid =
        stockOf db pid + reservedQty db o.id pid) := by
  have hpv : patchValid onum statusStr note = true := by
    unfold patchValid
    rw [hu]
    have hc : patchStatusWhitelist.contains statusStr = true := List.elem_iff.mpr hw
    rw [hc]
    cases note with
    | none => rfl
    | some n =>
      have := hn n rfl
      simp [this]
  have hgate : ¬ ¬ patchValid onum statusStr note = true := by simp [hpv]
  have hres : patchStatus db onum statusStr note uid =
      { status := 200, body := .payload
        commits := patchCommits db o onum statusStr note uid } := by
    rw [patchStatus, if_neg hgate, hfind]
    simp only [hvt]
    rw [if_neg (by
      intro hc
      exact hc (List.elem_iff.mpr hmem))]
  have hfs : (patchStatus db onum statusStr note uid).finalState db =
      { db with
          orders := db.orders.map fun o2 =>
            if o2.orderNumber = onum then
              { o2 with status := statusStr,
                        statusHistory :=
                          o2.statusHistory ++ [patchHist o statusStr note uid] }
            else o2
          products :=
            incsApply db.products (db.orderItems.filter fun it => it.orderId = o.id)
          audits := db.audits ++
            [{ userId := some uid, action := "UPDATE_ORDER_STATUS"
               entityId := toString o.id }] } := by
    rw [hres]
    exact runCommits_patch_cancel db o onum statusStr note uid hcr
  have hofind : (db.orders.map fun o2 =>
      if o2.orderNumber = onum then
        { o2 with status := statusStr,
                  statusHistory :=
                    o2.statusHistory ++ [patchHist o statusStr note uid] }
      else o2).find? (fun o2 => o2.orderNumber = onum) =
      some { o with status := statusStr,
                    statusHistory :=
                      o.statusHistory ++ [patchHist o statusStr note uid] } := by
    have hkey : ∀ o2 : Order,
        (if o2.orderNumber = onum then
          { o2 with status := statusStr,
                    statusHistory :=
                      o2.statusHistory ++ [patchHist o statusStr note uid] }
         else o2).orderNumber = o2.orderNumber := by
      intro o2
      by_cases hc : o2.orderNumber = onum <;> simp [hc]
    rw [find?_map_keyed Order.orderNumber _ hkey db.orders onum, hfind]
    have ho : o.orderNumber = onum := by
      have := List.find?_some hfind
      simpa using this
    simp [ho]
  refine ⟨by rw [hres], ?_, ?_, ?_, ?_⟩
  · rw [hres]
    show (patchCommits db o onum statusStr note uid).length = _
    rw [patchCommits, restoreCommits_cancel db o statusStr hcr]
    simp [List.length_append]
    omega
  · rw [hfs, statusOf, hofind]
    rfl
  · rw [hfs, historyOf, hofind]
    rfl
  · intro pid hpres
    rcases hpres with ⟨p, hp, hpid⟩
    have hsome : (db.products.find? fun q => decide (q.id = pid)).isSome := by
      rw [List.find?_isSome]
      exact ⟨p, hp, by simp [hpid]⟩
    rcases Option.isSome_iff_exists.mp hsome with ⟨q, hq⟩
    rw [hfs]
    show ((((incsApply db.products
        (db.orderItems.filter fun it => it.orderId = o.id)).find?
          fun q2 => decide (q2.id = pid)).map Product.stock).getD 0) = _
    rw [find?_incsApply, hq, stockOf, hq]
    rfl

/-- C4 (amended), witness: cancelling the one-item PENDING order of
`c4Db` restores the two reserved units to product 1 and marks the order
CANCELLED. -/
theorem C4_amended_witness :
    (patchStatus c4Db uuidSample "CANCELLED" none 9).status = 200 ∧
    stockOf ((patchStatus c4Db uuidSample "CANCELLED" none 9).finalState c4Db) 1 =
      stockOf c4Db 1 + reservedQty c4Db 1 1 :=
  have h := C4_amended c4Db uuidSample "CANCELLED" none 9
    { id := 1, orderNumber := uuidSample, phoneNumber := "33612345678"
      userId := none, total := 200, status := "PENDING"
      statusHistory := [], createdAt := 1 }
    (by decide) (by decide) (fun n hx => nomatch hx) (by decide)
    ["CONFIRMED", "CANCELLED"] (by decide) (by decide) (Or.inl rfl)
  ⟨h.1, h.2.2.2.2 1 (by decide)⟩

/-! ## Claim C3 -/

/-- One REST operation of the order state machine. -/
inductive Step where
  | create (phoneNumber : String) (items : List ReqItem) (userId : Nat)
  | patch (orderNumber newStatus : String) (note : Option String) (userId : Nat)
  deriving Repr, DecidableEq

/-- Run one operation to completion. -/
def stepRun (db : DB) : Step → DB
  | .create ph its uid => (createOrder db ph its uid).finalState db
  | .patch onum st note uid => (patchStatus db onum st note uid).finalState db

/-- Run a sequence of operations. -/
def runSteps (db : DB) (steps : List Step) : DB := steps.foldl stepRun db

/-- The stock invariant: product ids are pairwise distinct (the primary
key) and every stock is non-negative. -/
abbrev Inv (db : DB) : Prop :=
  (db.products.map Product.id).Nodup ∧ ∀ p ∈ db.products, 0 ≤ p.stock

theorem createOrder_preserves (db : DB) (ph : String) (items : List ReqItem)
    (uid : Nat) (h : Inv db) : Inv ((createOrder db ph items uid).finalState db) := by
  obtain ⟨hdb1, h2⟩ := h
  by_cases hv : ¬ createOrderValid items = true
  · rw [createOrder, if_pos hv]; exact ⟨hdb1, h2⟩
  · rw [createOrder, if_neg hv]
    by_cases hl : (fetchActive db (items.map ReqItem.productId)).length ≠
        (items.map ReqItem.productId).length
    · rw [if_pos hl]; exact ⟨hdb1, h2⟩
    · rw [if_neg hl]
      have hlen := not_not.mp hl
      obtain ⟨hndp, hall⟩ := fetchActive_length_inv hdb1 hlen
      cases hfi : firstInsufficient
          (fetchActive db (items.map ReqItem.productId)) items with
      | some nm => simp only [hfi]; exact ⟨hdb1, h2⟩
      | none =>
        simp only [hfi]
        have hfs : runCommits db [createTx db ph items uid] =
            { db with
                orders := db.orders ++ [newOrderOf db ph items uid]
                orderItems := db.orderItems ++
                  snapshotItems (fetchActive db (items.map ReqItem.productId))
                    items db.nextId db.nextId
                products := decsApply db.products items
                audits := db.audits ++ [createAudit db uid]
                nextId := db.nextId + 1 + items.length } :=
          applyCommit_create db _ _ items _ _
        show Inv (runCommits db [createTx db ph items uid])
        rw [hfs]
        refine ⟨?_, ?_⟩
        · show ((decsApply db.products items).map Product.id).Nodup
          rw [decsApply_map_id]
          exact hdb1
        · show ∀ p ∈ decsApply db.products items, 0 ≤ p.stock
          exact decsApply_nonneg items db.products hndp
            (firstInsufficient_none hdb1 hall hfi) h2

theorem patchStatus_preserves (db : DB) (onum st : String) (note : Option String)
    (uid : Nat) (h : Inv db) : Inv ((patchStatus db onum st note uid).finalState db) := by
  obtain ⟨hdb1, h2⟩ := h
  by_cases hg : ¬ patchValid onum st note = true
  · rw [patchStatus, if_pos hg]; exact ⟨hdb1, h2⟩
  · rw [patchStatus, if_neg hg]
    cases hfind : db.orders.find? fun o => o.orderNumber = onum with
    | none => exact ⟨hdb1, h2⟩
    | some o =>
      dsimp only
      cases hvt : validTransitions o.status with
      | none => exact ⟨hdb1, h2⟩
      | some allowed =>
        dsimp only
        by_cases hif : ¬ allowed.contains st = true
        · rw [if_pos hif]; exact ⟨hdb1, h2⟩
        · rw [if_neg hif]
          show Inv (runCommits db (patchCommits db o onum st note uid))
          by_cases hcr : st = "CANCELLED" ∨ st = "REFUNDED"
          · rw [runCommits_patch_cancel db o onum st note uid hcr]
            refine ⟨?_, ?_⟩
            · show ((incsApply db.products
                  (db.orderItems.filter fun it => it.orderId = o.id)).map
                    Product.id).Nodup
              rw [incsApply_map_id]
              exact hdb1
            · show ∀ p ∈ incsApply db.products
                  (db.orderItems.filter fun it => it.orderId = o.id), 0 ≤ p.stock
              exact incsApply_nonneg _ _ h2
          · rw [runCommits_patch_other db o onum st note uid hcr]
            exact ⟨hdb1, h2⟩

/-- C3 (confirmed): starting from pairwise-distinct product ids and
non-negative stocks, every sequence of order-creation and
status-transition operations (including the transitions to CANCELLED and
REFUNDED that restore stock) keeps every product's stock non-negative:
the creation transaction decrements only after its availability check
passed, and the restore path only increments. -/
theorem C3_theorem (db : DB) (steps : List Step) (h : Inv db) :
    Inv (runSteps db steps) := by
  induction steps generalizing db with
  | nil => exact h
  | cons s ss ih =>
    show Inv (runSteps (stepRun db s) ss)
    apply ih
    cases s with
    | create ph its uid => exact createOrder_preserves db ph its uid h
    | patch onum st note uid => exact patchStatus_preserves db onum st note uid h

/-- C3, witness: a concrete creation followed by a cancellation keeps the
invariant on the sample database. -/
theorem C3_theorem_witness :
    Inv (runSteps sampleDb
      [Step.create "0612345678" [ReqItem.mk 1 5] 7,
       Step.patch (uuidFromNat 10) "CANCELLED" none 9]) :=
  C3_theorem sampleDb
    [Step.create "0612345678" [ReqItem.mk 1 5] 7,
     Step.patch (uuidFromNat 10) "CANCELLED" none 9] (by decide)

/-! ## Claims C5, C6, C7 (webhook POST) and C10, C8 (interpreter) -/

/-- A concrete stand-in for the HMAC function in closed checks. -/
def macConst : String → String → String := fun _ _ => "0"

/-- A concrete provider environment. -/
def env0 : Env := { appSecret := some "s" }

/-- C5 (confirmed): whenever the `X-Hub-Signature-256` header is missing
or differs from `sha256=` followed by the HMAC of the exact raw body
under the configured app secret, the POST handler answers 401 having
produced no effect: no message row, no reply, no mark-as-read, and a
state identical to the input — in particular nothing that depends on the
parsed body, which is never consulted (the conclusion holds uniformly in
`req.parsed`). -/
theorem C5_theorem (mac : String → String → String) (env : Env) (db : DB)
    (req : WebhookReq) (sec : String) (hsec : env.appSecret = some sec)
    (hmis : req.signature ≠ some ("sha256=" ++ mac sec req.rawBody)) :
    webhookPost mac env db req = (401, [], db) := by
  have hv : verifyWebhookSignature mac env req.rawBody req.signature = false := by
    unfold verifyWebhookSignature
    rw [hsec]
    cases hsig : req.signature with
    | none => rfl
    | some s =>
      have hne : ¬ s = "sha256=" ++ mac sec req.rawBody :=
        fun he => hmis (by rw [hsig, he])
      simp [hne]
  rw [webhookPost, if_pos (by simp [hv])]

/-- C5, witness: a request with no signature header is rejected with 401
and no state change. -/
theorem C5_theorem_witness :
    webhookPost macConst env0 sampleDb
      { signature := none, rawBody := "x", parsed := none } = (401, [], sampleDb) :=
  C5_theorem macConst env0 sampleDb
    { signature := none, rawBody := "x", parsed := none } "s" rfl
    (fun h => Option.noConfusion h)

/-- C6, counterexample: a POST whose signature verifies but whose parsed
body lacks the `object`/`entry` structure is answered 400, not the
claimed 200. -/
theorem C6_counterexample :
    verifyWebhookSignature macConst env0 "{}" (some "sha256=0") = true ∧
    (webhookPost macConst env0 sampleDb
      { signature := some "sha256=0", rawBody := "{}"
        parsed := some { hasObject := false, entry := none } }).1 = 400 ∧
    (400 : Nat) ≠ 200 :=
  ⟨by decide, by decide, by decide⟩

/-- C6 (amended): once the signature verifies, the handler answers 200
for unparseable bodies (the outer catch) and for every body passing the
`object`/`entry` structure check — regardless of the database state and
of any downstream processing outcome — but answers 400 when the parsed
body fails that structure check. -/
theorem C6_amended (mac : String → String → String) (env : Env) (db : DB)
    (req : WebhookReq)
    (hver : verifyWebhookSignature mac env req.rawBody req.signature = true) :
    (req.parsed = none → (webhookPost mac env db req).1 = 200) ∧
    (∀ b, req.parsed = some b →
      ((b.hasObject && b.entry.isSome) = false →
        (webhookPost mac env db req).1 = 400) ∧
      ((b.hasObject && b.entry.isSome) = true →
        (webhookPost mac env db req).1 = 200)) := by
  have hgate : ¬ ¬ verifyWebhookSignature mac env req.rawBody req.signature = true := by
    simp [hver]
  refine ⟨?_, ?_⟩
  · intro hp
    rw [webhookPost, if_neg hgate, hp]
  · intro b hp
    refine ⟨?_, ?_⟩
    · intro hs
      rw [webhookPost, if_neg hgate, hp]
      dsimp only
      rw [if_pos (by simp [hs])]
    · intro hs
      rw [webhookPost, if_neg hgate, hp]
      dsimp only
      rw [if_neg (by simp [hs])]

/-- C6 (amended), witness: a verified request with an unparseable body is
answered 200. -/
theorem C6_amended_witness :
    (webhookPost macConst env0 sampleDb
      { signature := some "sha256=0", rawBody := "{}", parsed := none }).1 = 200 :=
  (C6_amended macConst env0 sampleDb
    { signature := some "sha256=0", rawBody := "{}", parsed := none } (by decide)).1 rfl

/-- A correctly signed text-message delivery (`bonjour` from a contact
with a 11-digit number). -/
def waReq1 : WebhookReq :=
  { signature := some "sha256=0", rawBody := "body"
    parsed := some
      { hasObject := true
        entry := some
          [{ changes :=
              [{ field := "messages"
                 messages := some
                   [{ id := "wamid.X", msgType := some "text"
                      textBody := some "bonjour", timestamp := "123" }]
                 contacts := [{ waId := "33612345678", profileName := some "Jack" }] }] }] } }

/-- C7 (code bug): the handler persists the provider message id only
inside the `metadata` JSON blob and keys the row on nothing, so
delivering the same payload twice stores two `Message` rows carrying the
same provider id and sends a reply both times — there is no
uniqueness-constraint detection at all (the Prisma schema's unique
`Message.whatsappId` column, evidently meant for this, is never
populated by this code path). -/
theorem C7_theorem :
    (webhookPost macConst env0 sampleDb waReq1).1 = 200 ∧
    (webhookPost macConst env0 sampleDb waReq1).2.2.messages.length = 1 ∧
    (webhookPost macConst env0
        (webhookPost macConst env0 sampleDb waReq1).2.2 waReq1).2.2.messages.length = 2 ∧
    ((webhookPost macConst env0
        (webhookPost macConst env0 sampleDb waReq1).2.2 waReq1).2.2.messages.map
      MessageRow.metaMessageId) = ["wamid.X", "wamid.X"] ∧
    sendCount (webhookPost macConst env0 sampleDb waReq1).2.1 = 1 ∧
    sendCount (webhookPost macConst env0
        (webhookPost macConst env0 sampleDb waReq1).2.2 waReq1).2.1 = 1 :=
  ⟨by decide, by decide, by decide, by decide, by decide, by decide⟩

/-- C10 (confirmed): an inbound text whose lower-cased, trimmed content
exceeds 1000 characters makes the interpreter send exactly the
message-too-long reply and nothing else: no command dispatch, no order,
no state change. -/
theorem C10_theorem (db : DB) (phone text : String)
    (h : 1000 < (jsTrim (jsToLower text)).length) :
    processCommand db phone text = (db, [.send phone tooLongText]) := by
  have hne : ¬ text = "" := by
    intro he
    subst he
    have hz : (jsTrim (jsToLower "")).length = 0 := rfl
    omega
  rw [processCommand, if_neg hne]
  dsimp only
  rw [if_pos h]

set_option maxRecDepth 40000 in
/-- C10, witness: 1001 repeated characters trigger the guard. -/
theorem C10_theorem_witness :
    processCommand sampleDb "33612345678" (String.mk (List.replicate 1001 'a')) =
      (sampleDb, [.send "33612345678" tooLongText]) :=
  C10_theorem sampleDb "33612345678" (String.mk (List.replicate 1001 'a')) (by decide)

/-! ## Claim C8 -/

/-- C8, counterexample: the interpreter's `switch` has no `catalogue` and
no `panier` case — both fall through to the fallback help text instead of
the product listing and the order listing the claim requires. -/
theorem C8_counterexample :
    parseCommand "catalogue" = ChatCmd.fallback ∧
    parseCommand "panier" = ChatCmd.fallback ∧
    ChatCmd.fallback ≠ ChatCmd.showProducts ∧
    ChatCmd.fallback ≠ ChatCmd.showOrders :=
  ⟨by decide, by decide, by decide, by decide⟩

/-- C8 (amended): on the lower-cased, trimmed text the interpreter maps
exactly `menu` and `produits` to the product listing (`catalogue` falls
to the help text); exactly `commande` and `commandes` to the sender's
recent orders (`panier` falls to the help text); `bonjour`, `salut`,
`hello` to the welcome text; a command starting with `acheter ` whose
remainder trims to a digits-only id to the single-item purchase flow for
that id, and to an invalid-id reply otherwise; and every other input to
the fallback help text. -/
theorem C8_amended :
    (parseCommand "menu" = ChatCmd.showProducts ∧
     parseCommand "produits" = ChatCmd.showProducts ∧
     parseCommand "catalogue" = ChatCmd.fallback) ∧
    (parseCommand "commande" = ChatCmd.showOrders ∧
     parseCommand "commandes" = ChatCmd.showOrders ∧
     parseCommand "panier" = ChatCmd.fallback) ∧
    (parseCommand "bonjour" = ChatCmd.welcome ∧
     parseCommand "salut" = ChatCmd.welcome ∧
     parseCommand "hello" = ChatCmd.welcome) ∧
    (∀ c, strStartsWith c "acheter " = true →
      isDigits (jsTrim (String.mk (c.data.drop 8))) = true →
      parseCommand c = ChatCmd.purchase (digitsToNat (jsTrim (String.mk (c.data.drop 8))))) ∧
    (∀ c, strStartsWith c "acheter " = true →
      isDigits (jsTrim (String.mk (c.data.drop 8))) = false →
      parseCommand c = ChatCmd.invalidProductId) ∧
    (∀ c, c ∉ ["menu", "produits", "bonjour", "salut", "hello",
        "commande", "commandes"] →
      strStartsWith c "acheter " = false → parseCommand c = ChatCmd.fallback) := by
  refine ⟨⟨by decide, by decide, by decide⟩, ⟨by decide, by decide, by decide⟩,
    ⟨by decide, by decide, by decide⟩, ?_, ?_, ?_⟩
  · intro c hstart hdig
    have h1 : ¬ c = "menu" := fun he => by subst he; exact absurd hstart (by decide)
    have h2 : ¬ c = "produits" := fun he => by subst he; exact absurd hstart (by decide)
    have h3 : ¬ c = "bonjour" := fun he => by subst he; exact absurd hstart (by decide)
    have h4 : ¬ c = "salut" := fun he => by subst he; exact absurd hstart (by decide)
    have h5 : ¬ c = "hello" := fun he => by subst he; exact absurd hstart (by decide)
    have h6 : ¬ c = "commande" := fun he => by subst he; exact absurd hstart (by decide)
    have h7 : ¬ c = "commandes" := fun he => by subst he; exact absurd hstart (by decide)
    rw [parseCommand, if_neg (by simp [h1, h2]), if_neg (by simp [h3, h4, h5]),
      if_neg (by simp [h6, h7]), if_pos (by simp [hstart])]
    dsimp only
    rw [if_pos hdig]
  · intro c hstart hdig
    have h1 : ¬ c = "menu" := fun he => by subst he; exact absurd hstart (by decide)
    have h2 : ¬ c = "produits" := fun he => by subst he; exact absurd hstart (by decide)
    have h3 : ¬ c = "bonjour" := fun he => by subst he; exact absurd hstart (by decide)
    have h4 : ¬ c = "salut" := fun he => by subst he; exact absurd hstart (by decide)
    have h5 : ¬ c = "hello" := fun he => by subst he; exact absurd hstart (by decide)
    have h6 : ¬ c = "commande" := fun he => by subst he; exact absurd hstart (by decide)
    have h7 : ¬ c = "commandes" := fun he => by subst he; exact absurd hstart (by decide)
    rw [parseCommand, if_neg (by simp [h1, h2]), if_neg (by simp [h3, h4, h5]),
      if_neg (by simp [h6, h7]), if_pos (by simp [hstart])]
    dsimp only
    rw [if_neg (by simp [hdig])]
  · intro c hmem hstart
    have h1 : ¬ c = "menu" := fun he => hmem (by rw [he]; decide)
    have h2 : ¬ c = "produits" := fun he => hmem (by rw [he]; decide)
    have h3 : ¬ c = "bonjour" := fun he => hmem (by rw [he]; decide)
    have h4 : ¬ c = "salut" := fun he => hmem (by rw [he]; decide)
    have h5 : ¬ c = "hello" := fun he => hmem (by rw [he]; decide)
    have h6 : ¬ c = "commande" := fun he => hmem (by rw [he]; decide)
    have h7 : ¬ c = "commandes" := fun he => hmem (by rw [he]; decide)
    rw [parseCommand, if_neg (by simp [h1, h2]), if_neg (by simp [h3, h4, h5]),
      if_neg (by simp [h6, h7]), if_neg (by simp [hstart])]

/-- C8 (amended), witness: a concrete purchase command parses to the
purchase flow for product 12. -/
theorem C8_amended_witness : parseCommand "acheter 12" = ChatCmd.purchase 12 := by
  have h := C8_amended.2.2.2.1 "acheter 12" (by decide) (by decide)
  rw [h]
  decide

/-! ## Claim C9 -/

theorem activeCount_pos {db : DB} {pid : Nat}
    (hord : (db.orders.map Order.id).Nodup) :
    0 < activeOrderItemCount db pid ↔
      ∃ it ∈ db.orderItems, it.productId = pid ∧
        ∃ o ∈ db.orders, o.id = it.orderId ∧ o.status ∈ blockingStatuses := by
  constructor
  · intro hpos
    rcases List.exists_mem_of_length_pos hpos with ⟨it, hit⟩
    rcases List.mem_filter.mp hit with ⟨hit0, hpred⟩
    rcases Bool.and_eq_true_iff.mp hpred with ⟨hp1, hp2⟩
    cases hfo : db.orders.find? fun o2 => o2.id = it.orderId with
    | none => rw [hfo] at hp2; exact absurd hp2 (by simp)
    | some o =>
      rw [hfo] at hp2
      refine ⟨it, hit0, by simpa using hp1, o, List.mem_of_find?_eq_some hfo, ?_, ?_⟩
      · have := List.find?_some hfo
        simpa using this
      · exact List.elem_iff.mp hp2
  · rintro ⟨it, hit, hpid, o, ho, hoid, hst⟩
    have hfo : db.orders.find? (fun o2 => decide (o2.id = it.orderId)) = some o := by
      have := find?_key_eq Order.id db.orders hord o ho
      rwa [hoid] at this
    have hmem : it ∈ db.orderItems.filter fun it2 =>
        it2.productId = pid &&
          (match db.orders.find? fun o2 => o2.id = it2.orderId with
           | some o2 => blockingStatuses.contains o2.status
           | none => false) := by
      refine List.mem_filter.mpr ⟨hit, ?_⟩
      rw [hfo]
      simp only [Bool.and_eq_true_iff, decide_eq_true_eq]
      exact ⟨hpid, List.elem_iff.mpr hst⟩
    exact List.length_pos_of_mem hmem

/-- C9 (confirmed): the delete route never removes a product row (the id
column of the product table is untouched in every branch); an unknown id
yields 404 with the state unchanged; a product held by any order item
whose order is PENDING, CONFIRMED or PROCESSING yields 409 with the
state unchanged; otherwise the handler answers 200 and the only change
besides the audit entry is `isActive := false` on that product — every
other product field, all orders and order items, and all messages are
untouched. -/
theorem C9_theorem (db : DB) (pid : Nat) (uid : Nat)
    (hord : (db.orders.map Order.id).Nodup) :
    (((deleteProduct db pid uid).2.2).products.map Product.id =
      db.products.map Product.id) ∧
    (db.products.find? (fun p => p.id = pid) = none →
      deleteProduct db pid uid = (404, .errorMsg "Produit non trouvé", db)) ∧
    ((db.products.find? (fun p => p.id = pid)).isSome →
      (∃ it ∈ db.orderItems, it.productId = pid ∧
        ∃ o ∈ db.orders, o.id = it.orderId ∧ o.status ∈ blockingStatuses) →
      deleteProduct db pid uid =
        (409, .errorMsg "Impossible de supprimer ce produit, des commandes sont en cours",
          db)) ∧
    ((db.products.find? (fun p => p.id = pid)).isSome →
      ¬ (∃ it ∈ db.orderItems, it.productId = pid ∧
        ∃ o ∈ db.orders, o.id = it.orderId ∧ o.status ∈ blockingStatuses) →
      (deleteProduct db pid uid).1 = 200 ∧
      ((deleteProduct db pid uid).2.2).products =
        db.products.map (fun p => if p.id = pid then { p with isActive := false } else p) ∧
      ((deleteProduct db pid uid).2.2).orders = db.orders ∧
      ((deleteProduct db pid uid).2.2).orderItems = db.orderItems ∧
      ((deleteProduct db pid uid).2.2).messages = db.messages) := by
  refine ⟨?_, ?_, ?_, ?_⟩
  · rw [deleteProduct]
    cases hf : db.products.find? fun p => p.id = pid with
    | none => rfl
    | some p =>
      dsimp only
      by_cases hc : 0 < activeOrderItemCount db pid
      · rw [if_pos hc]
      · rw [if_neg hc]
        dsimp only
        rw [List.map_map]
        apply List.map_congr_left
        intro q _
        by_cases hq : q.id = pid <;> simp [hq]
  · intro hf
    rw [deleteProduct, hf]
  · intro hf hex
    rcases Option.isSome_iff_exists.mp hf with ⟨p, hp⟩
    rw [deleteProduct, hp]
    dsimp only
    rw [if_pos ((activeCount_pos hord).mpr hex)]
  · intro hf hnex
    rcases Option.isSome_iff_exists.mp hf with ⟨p, hp⟩
    have hz : ¬ 0 < activeOrderItemCount db pid :=
      fun hpos => hnex ((activeCount_pos hord).mp hpos)
    rw [deleteProduct, hp]
    dsimp only
    rw [if_neg hz]
    exact ⟨rfl, rfl, rfl, rfl, rfl⟩

/-- C9, witness: deleting the product of `c4Db` (held by a PENDING
order) answers 409 and changes nothing. -/
theorem C9_theorem_witness :
    deleteProduct c4Db 1 9 =
      (409, .errorMsg "Impossible de supprimer ce produit, des commandes sont en cours",
        c4Db) :=
  (C9_theorem c4Db 1 9 (by decide)).2.2.1 (by decide)
    ⟨{ id := 2, orderId := 1, productId := 1, quantity := 2, price := 100 }, by decide,
      rfl,
      { id := 1, orderNumber := uuidSample, phoneNumber := "33612345678"
        userId := none, total := 200, status := "PENDING"
        statusHistory := [], createdAt := 1 }, by decide, rfl, by decide⟩

end WaCommerce
